import Mathlib

/-!
Verification development for the dynamo-record repository
(src/dynamoRecord.js): a shallow embedding of the parameter-building
and dispatch logic of the table-handle class, together with theorems
settling the frozen behavioural claims.

JavaScript runtime values are modelled by the inductive `JSValue`;
JavaScript objects are association lists in insertion order, with
property assignment keeping the position of an existing key and
appending a new key at the end, exactly as the JS object model does.
-/

/-- A JavaScript runtime value, as far as the wrapped code needs it:
strings, integers, booleans, null/undefined, arrays and plain objects. -/
inductive JSValue where
  | null : JSValue
  | bool : Bool → JSValue
  | num : Int → JSValue
  | str : String → JSValue
  | arr : List JSValue → JSValue
  | obj : List (String × JSValue) → JSValue

/-- A JavaScript object in insertion order. -/
abbrev JSObj := List (String × JSValue)

/-- Property read: first entry with the key, `none` for undefined. -/
def objGet (p : JSObj) (k : String) : Option JSValue :=
  match p with
  | [] => none
  | e :: rest => if e.1 = k then some e.2 else objGet rest k

/-- Property assignment: an existing key keeps its position and gets the
new value; a fresh key is appended at the end (JS insertion order). -/
def objSet (p : JSObj) (k : String) (v : JSValue) : JSObj :=
  match p with
  | [] => [(k, v)]
  | e :: rest => if e.1 = k then (k, v) :: rest else e :: objSet rest k v

/-- The JS delete operator: the key is removed from the object. -/
def objDelete (p : JSObj) (k : String) : JSObj :=
  p.filter (fun e => !(e.1 == k))

/-- Sequential property assignment of a whole entry list (left to right). -/
def objSetAll (p : JSObj) (l : JSObj) : JSObj :=
  l.foldl (fun acc e => objSet acc e.1 e.2) p

/-- The lodash size function on the values this code applies it to:
number of entries of an object, length of an array or string, 0 else. -/
def jsSize : JSValue → Nat
  | .obj l => l.length
  | .arr l => l.length
  | .str s => s.length
  | _ => 0

/-- Size of the value stored under a key; 0 when the key is absent,
matching lodash size applied to undefined. -/
def sizeOfField (p : JSObj) (k : String) : Nat :=
  match objGet p k with
  | some v => jsSize v
  | none => 0

/-- JavaScript truthiness of a value (undefined is handled by `Option`). -/
def jsTruthy : JSValue → Bool
  | .null => false
  | .bool b => b
  | .num n => n != 0
  | .str s => s != ""
  | .arr _ => true
  | .obj _ => true

/-- lodash upperFirst: the first character converted to upper case. -/
def upperFirst (s : String) : String :=
  match s.data with
  | [] => ""
  | c :: cs => String.mk (c.toUpper :: cs)

/-- Source assignConfig: spread params into a fresh object, then for each
config entry assign the value under the capitalized key. -/
def assignConfig (params config : JSObj) : JSObj :=
  config.foldl (fun acc e => objSet acc (upperFirst e.1) e.2) params

theorem objGet_objSet_self (p : JSObj) (k : String) (v : JSValue) :
    objGet (objSet p k v) k = some v := by
  induction p with
  | nil => simp [objGet, objSet]
  | cons e rest ih =>
    by_cases h : e.1 = k
    · simp [objGet, objSet, h]
    · simp [objGet, objSet, h, ih]

theorem objGet_objSet_ne (p : JSObj) (k g : String) (v : JSValue) (h : g ≠ k) :
    objGet (objSet p k v) g = objGet p g := by
  have hkg : ¬ (k = g) := fun hkg => h (Eq.symm hkg)
  induction p with
  | nil => simp [objGet, objSet, hkg]
  | cons e rest ih =>
    by_cases he : e.1 = k
    · simp [objGet, objSet, he, hkg]
    · simp [objGet, objSet, he, ih]

theorem objGet_objDelete_self (p : JSObj) (k : String) :
    objGet (objDelete p k) k = none := by
  induction p with
  | nil => simp [objGet, objDelete]
  | cons e rest ih =>
    by_cases h : e.1 = k
    · simpa [objDelete, List.filter_cons, h] using ih
    · simpa [objDelete, List.filter_cons, objGet, h] using ih

theorem objGet_objDelete_ne (p : JSObj) (k g : String) (h : g ≠ k) :
    objGet (objDelete p k) g = objGet p g := by
  have hkg : ¬ (k = g) := fun hkg => h (Eq.symm hkg)
  induction p with
  | nil => simp [objDelete]
  | cons e rest ih =>
    by_cases he : e.1 = k
    · simpa [objDelete, List.filter_cons, objGet, he, hkg] using ih
    · by_cases hg : e.1 = g
      · simp [objDelete, List.filter_cons, objGet, he, hg, h]
      · simpa [objDelete, List.filter_cons, objGet, he, hg] using ih

theorem objSet_of_objGet_none (p : JSObj) (k : String) (v : JSValue)
    (h : objGet p k = none) : objSet p k v = p ++ [(k, v)] := by
  induction p with
  | nil => simp [objSet]
  | cons e rest ih =>
    by_cases he : e.1 = k
    · simp [objGet, he] at h
    · simp [objGet, he] at h
      simp [objSet, he, ih h]

theorem objGet_append_of_none (p q : JSObj) (k : String)
    (h : objGet p k = none) : objGet (p ++ q) k = objGet q k := by
  induction p with
  | nil => simp
  | cons e rest ih =>
    by_cases he : e.1 = k
    · simp [objGet, he] at h
    · simp [objGet, he] at h ⊢
      exact ih h

theorem objSetAll_nil (p : JSObj) : objSetAll p [] = p := rfl

theorem objSetAll_cons (p : JSObj) (e : String × JSValue) (l : JSObj) :
    objSetAll p (e :: l) = objSetAll (objSet p e.1 e.2) l := rfl

theorem objSetAll_append_arg (p : JSObj) (l m : JSObj) :
    objSetAll p (l ++ m) = objSetAll (objSetAll p l) m := by
  simp [objSetAll]

theorem objSetAll_eq_append (l : JSObj) : ∀ p : JSObj,
    (∀ e ∈ l, objGet p e.1 = none) → (l.map Prod.fst).Nodup →
    objSetAll p l = p ++ l := by
  induction l with
  | nil => intro p _ _; simp [objSetAll]
  | cons e rest ih =>
    intro p hfresh hnd
    have hnd1 : (e.1 :: rest.map Prod.fst).Nodup := by simpa using hnd
    have hnotmem : e.1 ∉ rest.map Prod.fst := (List.nodup_cons.mp hnd1).1
    have hnd2 : (rest.map Prod.fst).Nodup := (List.nodup_cons.mp hnd1).2
    have hfresh2 : ∀ f ∈ rest, objGet (p ++ [(e.1, e.2)]) f.1 = none := by
      intro f hf
      have hne : ¬ (e.1 = f.1) := fun hcontra =>
        hnotmem (hcontra ▸ List.mem_map_of_mem Prod.fst hf)
      have h1 : objGet p f.1 = none := hfresh f (List.mem_cons_of_mem e hf)
      rw [objGet_append_of_none p [(e.1, e.2)] f.1 h1]
      simp [objGet, hne]
    rw [objSetAll_cons, objSet_of_objGet_none p e.1 e.2 (hfresh e (by simp)),
      ih (p ++ [(e.1, e.2)]) hfresh2 hnd2]
    simp

/-!
## The source model

Shallow embedding of src/dynamoRecord.js. Each public method is split
into its parameter-building function (pure) and a runner that hands the
parameters to the store client and adapts the callback result.
-/

/-- Modelled from the spec: the underlying store client capability is an
opaque external dependency; the source only constructs it, handing it the
options object literal written in the constructor, so the model retains
exactly those construction options. -/
structure DocumentClient where
  options : JSObj

/-- The table handle: a table name and the store client reference, both
assigned in the constructor and never reassigned by any method. -/
structure DynamoRecord where
  tableName : String
  dynamoClient : DocumentClient

/-- Source constructor: stores the table name and builds the client with
the options object literal containing the given region (the source files
the region under the key named tableRegion). -/
def mkDynamoRecord (tableName tableRegion : String) : DynamoRecord :=
  { tableName := tableName
    dynamoClient := { options := [("tableRegion", JSValue.str tableRegion)] } }

/-- The isArray-and-length-2 test of the source: a two element array is
viewed as a range [start, end note], anything else is not. -/
def asRange : JSValue → Option (JSValue × JSValue)
  | .arr [a, b] => some (a, b)
  | _ => none

/-- Assignment to a nested one-level path, as in the source statements
writing params.ExpressionAttributeNames and params.ExpressionAttributeValues
(the field always holds an object on every reachable path). -/
def setIn (p : JSObj) (field key : String) (v : JSValue) : JSObj :=
  let cur : JSObj :=
    match objGet p field with
    | some (.obj l) => l
    | _ => []
  objSet p field (.obj (objSet cur key v))

/-- One iteration of the forEach over the primary key object in where:
always bind the name placeholder, then either the BETWEEN clause with
Start/End value placeholders (two element array) or the equality clause
with a single value placeholder. The second component carries the
primaryKeyArray of clause strings. -/
def processKeyEntry (st : JSObj × List String) (e : String × JSValue) :
    JSObj × List String :=
  let p := setIn st.1 "ExpressionAttributeNames" ("#" ++ e.1) (.str e.1)
  match asRange e.2 with
  | some (a, b) =>
      (setIn (setIn p "ExpressionAttributeValues" (":" ++ e.1 ++ "Start") a)
        "ExpressionAttributeValues" (":" ++ e.1 ++ "End") b,
       st.2 ++ ["#" ++ e.1 ++ " BETWEEN :" ++ e.1 ++ "Start AND :" ++ e.1 ++ "End"])
  | none =>
      (setIn p "ExpressionAttributeValues" (":" ++ e.1) e.2,
       st.2 ++ ["#" ++ e.1 ++ " = :" ++ e.1])

/-- One iteration of the forEach over filterExpression.keys in where:
like the key iteration but contributing no clause string. -/
def processFilterEntry (p : JSObj) (e : String × JSValue) : JSObj :=
  let p1 := setIn p "ExpressionAttributeNames" ("#" ++ e.1) (.str e.1)
  match asRange e.2 with
  | some (a, b) =>
      setIn (setIn p1 "ExpressionAttributeValues" (":" ++ e.1 ++ "Start") a)
        "ExpressionAttributeValues" (":" ++ e.1 ++ "End") b
  | none => setIn p1 "ExpressionAttributeValues" (":" ++ e.1) e.2

/-- The primary key block of where: when primaryKey is truthy, run the
forEach and assign the clauses joined with AND to KeyConditionExpression;
otherwise leave the params alone. -/
def whereKeyBlock (p : JSObj) (primaryKey : Option JSObj) : JSObj :=
  match primaryKey with
  | some pk =>
      let st := pk.foldl processKeyEntry (p, [])
      objSet st.1 "KeyConditionExpression"
        (.str (String.intercalate " AND " st.2))
  | none => p

/-- The filter block of where: only when filterExpression, its condition
and its keys are all truthy, assign FilterExpression verbatim and run the
forEach over the keys. The model iterates object-valued keys, the shape the
data model gives the keys mapping; on a string or array value lodash
forEach would iterate index keys, writes that likewise touch only the two
placeholder maps. -/
def whereFilterBlock (p : JSObj) (filterExpression : Option JSObj) : JSObj :=
  match filterExpression with
  | some f =>
      match objGet f "condition", objGet f "keys" with
      | some cond, some keys =>
          if jsTruthy cond && jsTruthy keys then
            let p1 := objSet p "FilterExpression" cond
            match keys with
            | .obj ks => ks.foldl processFilterEntry p1
            | _ => p1
          else p
      | _, _ => p
  | none => p

/-- The params object of where after the primary key block and the filter
block, before the empty-map deletions and the config merge. -/
def whereBuilt (tableName : String)
    (primaryKey filterExpression : Option JSObj) : JSObj :=
  whereFilterBlock
    (whereKeyBlock
      [("TableName", .str tableName),
       ("ExpressionAttributeNames", .obj []),
       ("ExpressionAttributeValues", .obj []),
       ("ReturnConsumedCapacity", .str "TOTAL")]
      primaryKey)
    filterExpression

/-- The params object where dispatches: built params, then the two
if-size-zero deletions of the placeholder maps, then the config merge
(in exactly this source order). -/
def whereParams (tableName : String)
    (primaryKey filterExpression config : Option JSObj) : JSObj :=
  let p := whereBuilt tableName primaryKey filterExpression
  let p :=
    if sizeOfField p "ExpressionAttributeNames" = 0 then
      objDelete p "ExpressionAttributeNames"
    else p
  let p :=
    if sizeOfField p "ExpressionAttributeValues" = 0 then
      objDelete p "ExpressionAttributeValues"
    else p
  match config with
  | some c => assignConfig p c
  | none => p

/-- The pruneEmptyPlaceholders helper named by the spec: remove each
placeholder map that is empty. -/
def pruneEmptyPlaceholders (p : JSObj) : JSObj :=
  let p1 :=
    if sizeOfField p "ExpressionAttributeNames" = 0 then
      objDelete p "ExpressionAttributeNames"
    else p
  if sizeOfField p1 "ExpressionAttributeValues" = 0 then
    objDelete p1 "ExpressionAttributeValues"
  else p1

/-- The store primitives the client capability exposes. -/
inductive StoreOp where
  | get
  | query
  | scan
  | put
  | batchWrite
  | updateItem
  | deleteItem

/-- where dispatches on the truthiness of the primaryKey argument:
query when present, scan when absent. -/
def whereTarget (primaryKey : Option JSObj) : StoreOp :=
  match primaryKey with
  | some _ => StoreOp.query
  | none => StoreOp.scan

/-- The params object of find: key, forced strong consistency, capacity
reporting, then the config merge. -/
def findParams (tableName : String) (primaryKey : JSValue)
    (config : Option JSObj) : JSObj :=
  let p : JSObj :=
    [("TableName", .str tableName),
     ("Key", primaryKey),
     ("ConsistentRead", .bool true),
     ("ReturnConsumedCapacity", .str "TOTAL")]
  match config with
  | some c => assignConfig p c
  | none => p

/-- The params object of getAll. -/
def getAllParams (tableName : String) (config : Option JSObj) : JSObj :=
  let p : JSObj :=
    [("TableName", .str tableName),
     ("ReturnConsumedCapacity", .str "TOTAL")]
  match config with
  | some c => assignConfig p c
  | none => p

/-- The params object of create. -/
def createParams (tableName : String) (createData : JSValue)
    (config : Option JSObj) : JSObj :=
  let p : JSObj := [("TableName", .str tableName), ("Item", createData)]
  match config with
  | some c => assignConfig p c
  | none => p

/-- The params object of batchCreate: one PutRequest wrapper per item,
grouped under the table name. -/
def batchCreateParams (tableName : String) (createData : List JSValue)
    (config : Option JSObj) : JSObj :=
  let p : JSObj :=
    [("RequestItems",
      .obj [(tableName,
        .arr (createData.map
          (fun item => .obj [("PutRequest", .obj [("Item", item)])])))])]
  match config with
  | some c => assignConfig p c
  | none => p

/-- One iteration of the forEach over updateData in update: push the
assignment clause and bind both placeholders. -/
def processUpdateEntry (st : JSObj × List String) (e : String × JSValue) :
    JSObj × List String :=
  let p := setIn st.1 "ExpressionAttributeNames" ("#" ++ e.1) (.str e.1)
  (setIn p "ExpressionAttributeValues" (":" ++ e.1) e.2,
   st.2 ++ ["#" ++ e.1 ++ " = :" ++ e.1])

/-- The params object of update: key, placeholder maps, ALL_NEW flag,
the update expression when updateData is truthy, then the config merge.
The source has no empty-map deletions here. -/
def updateParams (tableName : String) (primaryKey : JSValue)
    (updateData : Option JSObj) (config : Option JSObj) : JSObj :=
  let p : JSObj :=
    [("TableName", .str tableName),
     ("Key", primaryKey),
     ("ExpressionAttributeNames", .obj []),
     ("ExpressionAttributeValues", .obj []),
     ("ReturnValues", .str "ALL_NEW")]
  let p :=
    match updateData with
    | some ud =>
        let st := ud.foldl processUpdateEntry (p, [])
        objSet st.1 "UpdateExpression"
          (.str ("set " ++ String.intercalate ", " st.2))
    | none => p
  match config with
  | some c => assignConfig p c
  | none => p

/-- The params object of destroy. -/
def destroyParams (tableName : String) (primaryKey : JSValue)
    (config : Option JSObj) : JSObj :=
  let p : JSObj := [("TableName", .str tableName), ("Key", primaryKey)]
  match config with
  | some c => assignConfig p c
  | none => p

/-- Outcome of the promise every method returns. -/
inductive PromiseOutcome where
  | resolved : JSValue → PromiseOutcome
  | rejected : JSValue → PromiseOutcome

/-- The single callback adapter every method uses: a truthy error rejects
with the error as is, anything else resolves with the data as is. -/
def settleCall (r : JSValue × JSValue) : PromiseOutcome :=
  if jsTruthy r.1 then PromiseOutcome.rejected r.1 else PromiseOutcome.resolved r.2

/-- Modelled from the spec: the store client behaviour, one single-shot
completion (error, data) per primitive and parameter object. -/
def StoreBehavior : Type := StoreOp → JSObj → JSValue × JSValue

/-- find: dispatches the get primitive and settles its callback. -/
def findRun (rec : DynamoRecord) (primaryKey : JSValue) (config : Option JSObj)
    (store : StoreBehavior) : PromiseOutcome :=
  settleCall (store StoreOp.get (findParams rec.tableName primaryKey config))

/-- where: dispatches query or scan per whereTarget and settles. -/
def whereRun (rec : DynamoRecord)
    (primaryKey filterExpression config : Option JSObj)
    (store : StoreBehavior) : PromiseOutcome :=
  settleCall (store (whereTarget primaryKey)
    (whereParams rec.tableName primaryKey filterExpression config))

/-- getAll: dispatches scan and settles. -/
def getAllRun (rec : DynamoRecord) (config : Option JSObj)
    (store : StoreBehavior) : PromiseOutcome :=
  settleCall (store StoreOp.scan (getAllParams rec.tableName config))

/-- create: dispatches put and settles. -/
def createRun (rec : DynamoRecord) (createData : JSValue) (config : Option JSObj)
    (store : StoreBehavior) : PromiseOutcome :=
  settleCall (store StoreOp.put (createParams rec.tableName createData config))

/-- batchCreate: dispatches batchWrite and settles. -/
def batchCreateRun (rec : DynamoRecord) (createData : List JSValue)
    (config : Option JSObj) (store : StoreBehavior) : PromiseOutcome :=
  settleCall (store StoreOp.batchWrite
    (batchCreateParams rec.tableName createData config))

/-- update: dispatches the update primitive and settles. -/
def updateRun (rec : DynamoRecord) (primaryKey : JSValue)
    (updateData config : Option JSObj) (store : StoreBehavior) : PromiseOutcome :=
  settleCall (store StoreOp.updateItem
    (updateParams rec.tableName primaryKey updateData config))

/-- destroy: dispatches the delete primitive and settles. -/
def destroyRun (rec : DynamoRecord) (primaryKey : JSValue) (config : Option JSObj)
    (store : StoreBehavior) : PromiseOutcome :=
  settleCall (store StoreOp.deleteItem
    (destroyParams rec.tableName primaryKey config))

/-- The clause one key entry contributes, per the claimed builder rules. -/
def entryClause (e : String × JSValue) : String :=
  match asRange e.2 with
  | some _ => "#" ++ e.1 ++ " BETWEEN :" ++ e.1 ++ "Start AND :" ++ e.1 ++ "End"
  | none => "#" ++ e.1 ++ " = :" ++ e.1

/-- The name-placeholder binding one entry contributes. -/
def entryNameBinding (e : String × JSValue) : String × JSValue :=
  ("#" ++ e.1, .str e.1)

/-- The value-placeholder bindings one entry contributes. -/
def entryValueBindings (e : String × JSValue) : List (String × JSValue) :=
  match asRange e.2 with
  | some (a, b) => [(":" ++ e.1 ++ "Start", a), (":" ++ e.1 ++ "End", b)]
  | none => [(":" ++ e.1, e.2)]

/-- True exactly when the key is present and holds an empty object. -/
def hasEmptyObjField (p : JSObj) (k : String) : Bool :=
  match objGet p k with
  | some (.obj []) => true
  | _ => false

/-!
## Lemmas about the expression-building folds
-/

theorem objGet_setIn_ne (p : JSObj) (field g key : String) (v : JSValue)
    (h : g ≠ field) : objGet (setIn p field key v) g = objGet p g := by
  simp [setIn, objGet_objSet_ne _ _ _ _ h]

theorem objGet_setIn_self (p : JSObj) (field key : String) (v : JSValue)
    (cur : JSObj) (h : objGet p field = some (.obj cur)) :
    objGet (setIn p field key v) field = some (.obj (objSet cur key v)) := by
  simp [setIn, h, objGet_objSet_self]

theorem keyFold_preserve (spec : JSObj) :
    ∀ (p : JSObj) (a : List String) (f : String),
      f ≠ "ExpressionAttributeNames" → f ≠ "ExpressionAttributeValues" →
      objGet (spec.foldl processKeyEntry (p, a)).1 f = objGet p f := by
  induction spec with
  | nil => intro p a f _ _; rfl
  | cons e rest ih =>
    intro p a f h1 h2
    rw [List.foldl_cons]
    cases hr : asRange e.2 with
    | none =>
      have hstep : processKeyEntry (p, a) e =
          (setIn (setIn p "ExpressionAttributeNames" ("#" ++ e.1) (.str e.1))
            "ExpressionAttributeValues" (":" ++ e.1) e.2,
           a ++ ["#" ++ e.1 ++ " = :" ++ e.1]) := by
        simp [processKeyEntry, hr]
      rw [hstep, ih _ _ f h1 h2, objGet_setIn_ne _ _ _ _ _ h2,
        objGet_setIn_ne _ _ _ _ _ h1]
    | some ab =>
      have hstep : processKeyEntry (p, a) e =
          (setIn (setIn
              (setIn p "ExpressionAttributeNames" ("#" ++ e.1) (.str e.1))
              "ExpressionAttributeValues" (":" ++ e.1 ++ "Start") ab.1)
            "ExpressionAttributeValues" (":" ++ e.1 ++ "End") ab.2,
           a ++ ["#" ++ e.1 ++ " BETWEEN :" ++ e.1 ++ "Start AND :" ++ e.1 ++ "End"]) := by
        simp [processKeyEntry, hr]
      rw [hstep, ih _ _ f h1 h2, objGet_setIn_ne _ _ _ _ _ h2,
        objGet_setIn_ne _ _ _ _ _ h2, objGet_setIn_ne _ _ _ _ _ h1]

theorem keyFold_spec (spec : JSObj) :
    ∀ (p : JSObj) (a : List String) (en ev : JSObj),
      objGet p "ExpressionAttributeNames" = some (.obj en) →
      objGet p "ExpressionAttributeValues" = some (.obj ev) →
      objGet (spec.foldl processKeyEntry (p, a)).1 "ExpressionAttributeNames"
          = some (.obj (objSetAll en (spec.map entryNameBinding))) ∧
      objGet (spec.foldl processKeyEntry (p, a)).1 "ExpressionAttributeValues"
          = some (.obj (objSetAll ev (spec.flatMap entryValueBindings))) ∧
      (spec.foldl processKeyEntry (p, a)).2 = a ++ spec.map entryClause := by
  induction spec with
  | nil =>
    intro p a en ev h1 h2
    exact ⟨h1, h2, by simp⟩
  | cons e rest ih =>
    intro p a en ev h1 h2
    rw [List.foldl_cons]
    have hEANeEAV : ("ExpressionAttributeNames" : String) ≠ "ExpressionAttributeValues" := by
      decide
    have hEAVnEAN : ("ExpressionAttributeValues" : String) ≠ "ExpressionAttributeNames" := by
      decide
    cases hr : asRange e.2 with
    | none =>
      have hstep : processKeyEntry (p, a) e =
          (setIn (setIn p "ExpressionAttributeNames" ("#" ++ e.1) (.str e.1))
            "ExpressionAttributeValues" (":" ++ e.1) e.2,
           a ++ ["#" ++ e.1 ++ " = :" ++ e.1]) := by
        simp [processKeyEntry, hr]
      rw [hstep]
      have hen : objGet (setIn (setIn p "ExpressionAttributeNames" ("#" ++ e.1) (.str e.1))
            "ExpressionAttributeValues" (":" ++ e.1) e.2) "ExpressionAttributeNames"
          = some (.obj (objSet en ("#" ++ e.1) (.str e.1))) := by
        rw [objGet_setIn_ne _ _ _ _ _ hEANeEAV]
        exact objGet_setIn_self _ _ _ _ _ h1
      have hev0 : objGet (setIn p "ExpressionAttributeNames" ("#" ++ e.1) (.str e.1))
            "ExpressionAttributeValues" = some (.obj ev) := by
        rw [objGet_setIn_ne _ _ _ _ _ hEAVnEAN]
        exact h2
      have hev : objGet (setIn (setIn p "ExpressionAttributeNames" ("#" ++ e.1) (.str e.1))
            "ExpressionAttributeValues" (":" ++ e.1) e.2) "ExpressionAttributeValues"
          = some (.obj (objSet ev (":" ++ e.1) e.2)) :=
        objGet_setIn_self _ _ _ _ _ hev0
      obtain ⟨c1, c2, c3⟩ := ih _ _ _ _ hen hev
      refine ⟨?_, ?_, ?_⟩
      · exact c1
      · have hb : (e :: rest).flatMap entryValueBindings
            = [(":" ++ e.1, e.2)] ++ rest.flatMap entryValueBindings := by
          simp [entryValueBindings, hr]
        rw [hb, objSetAll_append_arg]
        exact c2
      · have hc : entryClause e = "#" ++ e.1 ++ " = :" ++ e.1 := by
          simp [entryClause, hr]
        rw [c3, List.map_cons, hc]
        simp
    | some ab =>
      have hstep : processKeyEntry (p, a) e =
          (setIn (setIn
              (setIn p "ExpressionAttributeNames" ("#" ++ e.1) (.str e.1))
              "ExpressionAttributeValues" (":" ++ e.1 ++ "Start") ab.1)
            "ExpressionAttributeValues" (":" ++ e.1 ++ "End") ab.2,
           a ++ ["#" ++ e.1 ++ " BETWEEN :" ++ e.1 ++ "Start AND :" ++ e.1 ++ "End"]) := by
        simp [processKeyEntry, hr]
      rw [hstep]
      have hen : objGet (setIn (setIn
              (setIn p "ExpressionAttributeNames" ("#" ++ e.1) (.str e.1))
              "ExpressionAttributeValues" (":" ++ e.1 ++ "Start") ab.1)
            "ExpressionAttributeValues" (":" ++ e.1 ++ "End") ab.2) "ExpressionAttributeNames"
          = some (.obj (objSet en ("#" ++ e.1) (.str e.1))) := by
        rw [objGet_setIn_ne _ _ _ _ _ hEANeEAV, objGet_setIn_ne _ _ _ _ _ hEANeEAV]
        exact objGet_setIn_self _ _ _ _ _ h1
      have hev0 : objGet (setIn p "ExpressionAttributeNames" ("#" ++ e.1) (.str e.1))
            "ExpressionAttributeValues" = some (.obj ev) := by
        rw [objGet_setIn_ne _ _ _ _ _ hEAVnEAN]
        exact h2
      have hev1 : objGet (setIn
              (setIn p "ExpressionAttributeNames" ("#" ++ e.1) (.str e.1))
              "ExpressionAttributeValues" (":" ++ e.1 ++ "Start") ab.1)
            "ExpressionAttributeValues"
          = some (.obj (objSet ev (":" ++ e.1 ++ "Start") ab.1)) :=
        objGet_setIn_self _ _ _ _ _ hev0
      have hev : objGet (setIn (setIn
              (setIn p "ExpressionAttributeNames" ("#" ++ e.1) (.str e.1))
              "ExpressionAttributeValues" (":" ++ e.1 ++ "Start") ab.1)
            "ExpressionAttributeValues" (":" ++ e.1 ++ "End") ab.2) "ExpressionAttributeValues"
          = some (.obj (objSet (objSet ev (":" ++ e.1 ++ "Start") ab.1) (":" ++ e.1 ++ "End") ab.2)) :=
        objGet_setIn_self _ _ _ _ _ hev1
      obtain ⟨c1, c2, c3⟩ := ih _ _ _ _ hen hev
      refine ⟨?_, ?_, ?_⟩
      · exact c1
      · have hb : (e :: rest).flatMap entryValueBindings
            = [(":" ++ e.1 ++ "Start", ab.1), (":" ++ e.1 ++ "End", ab.2)]
              ++ rest.flatMap entryValueBindings := by
          simp [entryValueBindings, hr]
        rw [hb, objSetAll_append_arg]
        exact c2
      · have hc : entryClause e
            = "#" ++ e.1 ++ " BETWEEN :" ++ e.1 ++ "Start AND :" ++ e.1 ++ "End" := by
          simp [entryClause, hr]
        rw [c3, List.map_cons, hc]
        simp

theorem filterFold_preserve (ks : JSObj) :
    ∀ (p : JSObj) (f : String),
      f ≠ "ExpressionAttributeNames" → f ≠ "ExpressionAttributeValues" →
      objGet (ks.foldl processFilterEntry p) f = objGet p f := by
  induction ks with
  | nil => intro p f _ _; rfl
  | cons e rest ih =>
    intro p f h1 h2
    rw [List.foldl_cons]
    cases hr : asRange e.2 with
    | none =>
      have hstep : processFilterEntry p e =
          setIn (setIn p "ExpressionAttributeNames" ("#" ++ e.1) (.str e.1))
            "ExpressionAttributeValues" (":" ++ e.1) e.2 := by
        simp [processFilterEntry, hr]
      rw [hstep, ih _ f h1 h2, objGet_setIn_ne _ _ _ _ _ h2,
        objGet_setIn_ne _ _ _ _ _ h1]
    | some ab =>
      have hstep : processFilterEntry p e =
          setIn (setIn
              (setIn p "ExpressionAttributeNames" ("#" ++ e.1) (.str e.1))
              "ExpressionAttributeValues" (":" ++ e.1 ++ "Start") ab.1)
            "ExpressionAttributeValues" (":" ++ e.1 ++ "End") ab.2 := by
        simp [processFilterEntry, hr]
      rw [hstep, ih _ f h1 h2, objGet_setIn_ne _ _ _ _ _ h2,
        objGet_setIn_ne _ _ _ _ _ h2, objGet_setIn_ne _ _ _ _ _ h1]

theorem updateFold_preserve (spec : JSObj) :
    ∀ (p : JSObj) (a : List String) (f : String),
      f ≠ "ExpressionAttributeNames" → f ≠ "ExpressionAttributeValues" →
      objGet (spec.foldl processUpdateEntry (p, a)).1 f = objGet p f := by
  induction spec with
  | nil => intro p a f _ _; rfl
  | cons e rest ih =>
    intro p a f h1 h2
    rw [List.foldl_cons]
    have hstep : processUpdateEntry (p, a) e =
        (setIn (setIn p "ExpressionAttributeNames" ("#" ++ e.1) (.str e.1))
          "ExpressionAttributeValues" (":" ++ e.1) e.2,
         a ++ ["#" ++ e.1 ++ " = :" ++ e.1]) := rfl
    rw [hstep, ih _ _ f h1 h2, objGet_setIn_ne _ _ _ _ _ h2,
      objGet_setIn_ne _ _ _ _ _ h1]

theorem updateFold_spec (spec : JSObj) :
    ∀ (p : JSObj) (a : List String) (en ev : JSObj),
      objGet p "ExpressionAttributeNames" = some (.obj en) →
      objGet p "ExpressionAttributeValues" = some (.obj ev) →
      objGet (spec.foldl processUpdateEntry (p, a)).1 "ExpressionAttributeNames"
          = some (.obj (objSetAll en (spec.map entryNameBinding))) ∧
      objGet (spec.foldl processUpdateEntry (p, a)).1 "ExpressionAttributeValues"
          = some (.obj (objSetAll ev (spec.map (fun e => (":" ++ e.1, e.2))))) ∧
      (spec.foldl processUpdateEntry (p, a)).2
          = a ++ spec.map (fun e => "#" ++ e.1 ++ " = :" ++ e.1) := by
  induction spec with
  | nil =>
    intro p a en ev h1 h2
    exact ⟨h1, h2, by simp⟩
  | cons e rest ih =>
    intro p a en ev h1 h2
    rw [List.foldl_cons]
    have hEANeEAV : ("ExpressionAttributeNames" : String) ≠ "ExpressionAttributeValues" := by
      decide
    have hEAVnEAN : ("ExpressionAttributeValues" : String) ≠ "ExpressionAttributeNames" := by
      decide
    have hstep : processUpdateEntry (p, a) e =
        (setIn (setIn p "ExpressionAttributeNames" ("#" ++ e.1) (.str e.1))
          "ExpressionAttributeValues" (":" ++ e.1) e.2,
         a ++ ["#" ++ e.1 ++ " = :" ++ e.1]) := rfl
    rw [hstep]
    have hen : objGet (setIn (setIn p "ExpressionAttributeNames" ("#" ++ e.1) (.str e.1))
          "ExpressionAttributeValues" (":" ++ e.1) e.2) "ExpressionAttributeNames"
        = some (.obj (objSet en ("#" ++ e.1) (.str e.1))) := by
      rw [objGet_setIn_ne _ _ _ _ _ hEANeEAV]
      exact objGet_setIn_self _ _ _ _ _ h1
    have hev0 : objGet (setIn p "ExpressionAttributeNames" ("#" ++ e.1) (.str e.1))
          "ExpressionAttributeValues" = some (.obj ev) := by
      rw [objGet_setIn_ne _ _ _ _ _ hEAVnEAN]
      exact h2
    have hev : objGet (setIn (setIn p "ExpressionAttributeNames" ("#" ++ e.1) (.str e.1))
          "ExpressionAttributeValues" (":" ++ e.1) e.2) "ExpressionAttributeValues"
        = some (.obj (objSet ev (":" ++ e.1) e.2)) :=
      objGet_setIn_self _ _ _ _ _ hev0
    obtain ⟨c1, c2, c3⟩ := ih _ _ _ _ hen hev
    refine ⟨c1, c2, ?_⟩
    rw [c3, List.map_cons]
    simp

theorem whereKeyBlock_preserve (p : JSObj) (pk : Option JSObj) (f : String)
    (h1 : f ≠ "ExpressionAttributeNames") (h2 : f ≠ "ExpressionAttributeValues")
    (h3 : f ≠ "KeyConditionExpression") :
    objGet (whereKeyBlock p pk) f = objGet p f := by
  cases pk with
  | none => rfl
  | some spec =>
    simp only [whereKeyBlock]
    rw [objGet_objSet_ne _ _ _ _ h3]
    exact keyFold_preserve spec p [] f h1 h2

theorem whereFilterBlock_preserve (p : JSObj) (fe : Option JSObj) (f : String)
    (h1 : f ≠ "ExpressionAttributeNames") (h2 : f ≠ "ExpressionAttributeValues")
    (h3 : f ≠ "FilterExpression") :
    objGet (whereFilterBlock p fe) f = objGet p f := by
  cases fe with
  | none => rfl
  | some fobj =>
    simp only [whereFilterBlock]
    split
    · split
      · split
        · rw [filterFold_preserve _ _ f h1 h2, objGet_objSet_ne _ _ _ _ h3]
        · rw [objGet_objSet_ne _ _ _ _ h3]
      · rfl
    · rfl

theorem whereBuilt_preserve (tableName : String)
    (pk fe : Option JSObj) (f : String)
    (h1 : f ≠ "ExpressionAttributeNames") (h2 : f ≠ "ExpressionAttributeValues")
    (h3 : f ≠ "KeyConditionExpression") (h4 : f ≠ "FilterExpression") :
    objGet (whereBuilt tableName pk fe) f
      = objGet [("TableName", JSValue.str tableName),
          ("ExpressionAttributeNames", JSValue.obj []),
          ("ExpressionAttributeValues", JSValue.obj []),
          ("ReturnConsumedCapacity", JSValue.str "TOTAL")] f := by
  unfold whereBuilt
  rw [whereFilterBlock_preserve _ _ _ h1 h2 h4, whereKeyBlock_preserve _ _ _ h1 h2 h3]

theorem whereBuilt_RCC (tableName : String) (pk fe : Option JSObj) :
    objGet (whereBuilt tableName pk fe) "ReturnConsumedCapacity"
      = some (JSValue.str "TOTAL") := by
  rw [whereBuilt_preserve tableName pk fe "ReturnConsumedCapacity"
    (by decide) (by decide) (by decide) (by decide)]
  rfl

theorem whereParams_none_eq (tableName : String) (pk fe : Option JSObj) :
    whereParams tableName pk fe none
      = pruneEmptyPlaceholders (whereBuilt tableName pk fe) := rfl

theorem whereParams_some_eq (tableName : String) (pk fe : Option JSObj)
    (config : JSObj) :
    whereParams tableName pk fe (some config)
      = assignConfig (pruneEmptyPlaceholders (whereBuilt tableName pk fe)) config := rfl

theorem objGet_prune (p : JSObj) (f : String)
    (h1 : f ≠ "ExpressionAttributeNames") (h2 : f ≠ "ExpressionAttributeValues") :
    objGet (pruneEmptyPlaceholders p) f = objGet p f := by
  simp only [pruneEmptyPlaceholders]
  by_cases c1 : sizeOfField p "ExpressionAttributeNames" = 0
  · rw [if_pos c1]
    by_cases c2 : sizeOfField (objDelete p "ExpressionAttributeNames")
        "ExpressionAttributeValues" = 0
    · rw [if_pos c2, objGet_objDelete_ne _ _ _ h2, objGet_objDelete_ne _ _ _ h1]
    · rw [if_neg c2, objGet_objDelete_ne _ _ _ h1]
  · rw [if_neg c1]
    by_cases c2 : sizeOfField p "ExpressionAttributeValues" = 0
    · rw [if_pos c2, objGet_objDelete_ne _ _ _ h2]
    · rw [if_neg c2]

theorem hasEmptyObjField_congr (p q : JSObj) (k : String)
    (h : objGet q k = objGet p k) :
    hasEmptyObjField q k = hasEmptyObjField p k := by
  unfold hasEmptyObjField
  rw [h]

theorem hasEmptyObjField_of_none (p : JSObj) (k : String)
    (h : objGet p k = none) : hasEmptyObjField p k = false := by
  unfold hasEmptyObjField
  rw [h]

theorem hasEmptyObjField_of_size_pos (p : JSObj) (k : String)
    (h : sizeOfField p k ≠ 0) : hasEmptyObjField p k = false := by
  unfold hasEmptyObjField
  unfold sizeOfField at h
  cases hv : objGet p k with
  | none => rfl
  | some v =>
    rw [hv] at h
    cases v with
    | obj l =>
      cases l with
      | nil => exact absurd rfl h
      | cons b bs => rfl
    | null => rfl
    | bool b => rfl
    | num n => rfl
    | str s => rfl
    | arr l => rfl

theorem prune_no_empty (p : JSObj) :
    hasEmptyObjField (pruneEmptyPlaceholders p) "ExpressionAttributeNames" = false ∧
    hasEmptyObjField (pruneEmptyPlaceholders p) "ExpressionAttributeValues" = false := by
  have hne : ("ExpressionAttributeNames" : String) ≠ "ExpressionAttributeValues" := by
    decide
  have step2 : ∀ q : JSObj,
      objGet (if sizeOfField q "ExpressionAttributeValues" = 0 then
          objDelete q "ExpressionAttributeValues" else q) "ExpressionAttributeNames"
        = objGet q "ExpressionAttributeNames" := by
    intro q
    by_cases c : sizeOfField q "ExpressionAttributeValues" = 0
    · rw [if_pos c, objGet_objDelete_ne _ _ _ hne]
    · rw [if_neg c]
  constructor
  · simp only [pruneEmptyPlaceholders]
    by_cases c1 : sizeOfField p "ExpressionAttributeNames" = 0
    · rw [if_pos c1, hasEmptyObjField_congr _ _ _ (step2 (objDelete p "ExpressionAttributeNames"))]
      exact hasEmptyObjField_of_none _ _ (objGet_objDelete_self p "ExpressionAttributeNames")
    · rw [if_neg c1, hasEmptyObjField_congr _ _ _ (step2 p)]
      exact hasEmptyObjField_of_size_pos p "ExpressionAttributeNames" c1
  · simp only [pruneEmptyPlaceholders]
    by_cases c1 : sizeOfField p "ExpressionAttributeNames" = 0
    · rw [if_pos c1]
      by_cases c2 : sizeOfField (objDelete p "ExpressionAttributeNames")
          "ExpressionAttributeValues" = 0
      · rw [if_pos c2]
        exact hasEmptyObjField_of_none _ _ (objGet_objDelete_self _ "ExpressionAttributeValues")
      · rw [if_neg c2]
        exact hasEmptyObjField_of_size_pos _ "ExpressionAttributeValues" c2
    · rw [if_neg c1]
      by_cases c2 : sizeOfField p "ExpressionAttributeValues" = 0
      · rw [if_pos c2]
        exact hasEmptyObjField_of_none _ _ (objGet_objDelete_self _ "ExpressionAttributeValues")
      · rw [if_neg c2]
        exact hasEmptyObjField_of_size_pos _ "ExpressionAttributeValues" c2

theorem assignConfig_cons (p : JSObj) (e : String × JSValue) (rest : JSObj) :
    assignConfig p (e :: rest)
      = assignConfig (objSet p (upperFirst e.1) e.2) rest := rfl

theorem assignConfig_notMem (cfg : JSObj) : ∀ (p : JSObj) (f : String),
    f ∉ cfg.map (fun e => upperFirst e.1) →
    objGet (assignConfig p cfg) f = objGet p f := by
  induction cfg with
  | nil => intro p f _; rfl
  | cons e rest ih =>
    intro p f hf
    simp only [List.map_cons, List.mem_cons, not_or] at hf
    rw [assignConfig_cons, ih _ f hf.2, objGet_objSet_ne _ _ _ _ hf.1]

theorem assignConfig_mem (cfg : JSObj) : ∀ p : JSObj,
    (cfg.map (fun e => upperFirst e.1)).Nodup →
    ∀ e ∈ cfg, objGet (assignConfig p cfg) (upperFirst e.1) = some e.2 := by
  induction cfg with
  | nil => intro p _ e he; cases he
  | cons b rest ih =>
    intro p hnd e he
    have hnd1 : (upperFirst b.1 :: rest.map (fun e => upperFirst e.1)).Nodup := by
      simpa using hnd
    rcases List.mem_cons.mp he with h | h
    · rw [h, assignConfig_cons,
        assignConfig_notMem rest _ (upperFirst b.1) (List.nodup_cons.mp hnd1).1]
      exact objGet_objSet_self _ _ _
    · exact ih (objSet p (upperFirst b.1) b.2) (List.nodup_cons.mp hnd1).2 e h

theorem string_append_left_cancel (s a b : String) (h : s ++ a = s ++ b) :
    a = b := by
  cases s; cases a; cases b
  simp only [HAppend.hAppend, Append.append, String.append] at h
  injection h with h
  rw [List.append_cancel_left h]

theorem intercalate_singleton (s a : String) : String.intercalate s [a] = a := by
  simp [String.intercalate, String.intercalate.go]

theorem asRange_of_length_ne_two (l : List JSValue) (h : l.length ≠ 2) :
    asRange (JSValue.arr l) = none := by
  cases l with
  | nil => rfl
  | cons a t =>
    cases t with
    | nil => rfl
    | cons b t2 =>
      cases t2 with
      | nil => exact absurd rfl h
      | cons c t3 => rfl

/-!
## The claims
-/

/-- Claim C1: constructing the table handle with (tableName, region) yields
a handle whose stored table name equals tableName and whose store client
was handed the given region in its construction options (under the option
key the source writes). The embedding gives every operation read-only
access to the handle and the source assigns both fields only in the
constructor, so both are fixed thereafter; the third conjunct exhibits that
an operation reads the table name fixed at construction. -/
theorem constructor_fixes_table_and_region :
    ∀ tableName tableRegion : String,
      (mkDynamoRecord tableName tableRegion).tableName = tableName ∧
      objGet (mkDynamoRecord tableName tableRegion).dynamoClient.options
          "tableRegion" = some (JSValue.str tableRegion) ∧
      (∀ (primaryKey : JSValue) (config : Option JSObj) (store : StoreBehavior),
        findRun (mkDynamoRecord tableName tableRegion) primaryKey config store
          = settleCall (store StoreOp.get (findParams tableName primaryKey config))) :=
  fun _ _ => ⟨rfl, rfl, fun _ _ _ => rfl⟩

/-- Claim C2 counterexample: update with a present but empty update
specification dispatches parameters that still carry both placeholder maps,
present and empty, refuting the claim that every operation building
placeholder mappings omits an empty one. -/
theorem update_empty_maps_sent_cex :
    objGet (updateParams "T" (JSValue.obj [("id", JSValue.str "1")]) (some []) none)
        "ExpressionAttributeNames" = some (JSValue.obj []) ∧
    objGet (updateParams "T" (JSValue.obj [("id", JSValue.str "1")]) (some []) none)
        "ExpressionAttributeValues" = some (JSValue.obj []) :=
  ⟨rfl, rfl⟩

/-- Claim C2 amended: in where the two deletions run before the config
merge, so the dispatched request never holds a present-but-empty
placeholder map unless the caller override configuration itself writes a
value under that exact capitalized field name and so re-inserts one (the
C3 counterexample input does exactly that); update has no such pruning and
sends its placeholder maps even when they are empty. -/
theorem where_prunes_update_does_not :
    (∀ (tableName : String) (primaryKey filterExpression : Option JSObj),
        hasEmptyObjField (whereParams tableName primaryKey filterExpression none)
          "ExpressionAttributeNames" = false ∧
        hasEmptyObjField (whereParams tableName primaryKey filterExpression none)
          "ExpressionAttributeValues" = false) ∧
    (∀ (tableName : String) (primaryKey filterExpression : Option JSObj)
        (config : JSObj),
        ("ExpressionAttributeNames" ∉ config.map (fun e => upperFirst e.1) →
          hasEmptyObjField
            (whereParams tableName primaryKey filterExpression (some config))
            "ExpressionAttributeNames" = false) ∧
        ("ExpressionAttributeValues" ∉ config.map (fun e => upperFirst e.1) →
          hasEmptyObjField
            (whereParams tableName primaryKey filterExpression (some config))
            "ExpressionAttributeValues" = false)) ∧
    (∀ (tableName : String) (primaryKey : JSValue),
        objGet (updateParams tableName primaryKey (some []) none)
          "ExpressionAttributeNames" = some (JSValue.obj []) ∧
        objGet (updateParams tableName primaryKey (some []) none)
          "ExpressionAttributeValues" = some (JSValue.obj [])) := by
  refine ⟨?_, ?_, ?_⟩
  · intro tableName primaryKey filterExpression
    rw [whereParams_none_eq]
    exact prune_no_empty _
  · intro tableName primaryKey filterExpression config
    constructor
    · intro hmem
      rw [whereParams_some_eq, hasEmptyObjField_congr _ _ _
        (assignConfig_notMem config _ "ExpressionAttributeNames" hmem)]
      exact (prune_no_empty _).1
    · intro hmem
      rw [whereParams_some_eq, hasEmptyObjField_congr _ _ _
        (assignConfig_notMem config _ "ExpressionAttributeValues" hmem)]
      exact (prune_no_empty _).2
  · intro tableName primaryKey
    exact ⟨rfl, rfl⟩

/-- Claim C3 counterexample: with no key and no filter and an override
configuration that re-inserts an empty ExpressionAttributeNames, where
dispatches an object still holding the empty map, whereas pruning applied
after the override merge would have removed it, so the dispatched object is
not pruneEmptyPlaceholders of the merged parameters. -/
theorem where_prune_before_merge_cex :
    whereParams "T" none none (some [("expressionAttributeNames", JSValue.obj [])])
      ≠ pruneEmptyPlaceholders (assignConfig (whereBuilt "T" none none)
          [("expressionAttributeNames", JSValue.obj [])]) := by
  intro h
  have h2 : (some (JSValue.obj []) : Option JSValue) = none :=
    congrArg (fun q => objGet q "ExpressionAttributeNames") h
  exact Option.noConfusion h2

/-- Claim C3 amended: the pruning of empty placeholder maps runs before the
override merge, not after it: for every key specification, filter
specification and override configuration the dispatched parameter object
equals mergeOverrides applied to pruneEmptyPlaceholders of the generated
parameters. -/
theorem where_merge_after_prune :
    ∀ (tableName : String) (primaryKey filterExpression : Option JSObj)
      (config : JSObj),
      whereParams tableName primaryKey filterExpression (some config)
        = assignConfig (pruneEmptyPlaceholders
            (whereBuilt tableName primaryKey filterExpression)) config :=
  fun _ _ _ _ => rfl

/-- Claim C5: where dispatches to the query primitive exactly when a key
specification is present and to scan otherwise; called with no arguments it
sets no key condition expression and hands the parameters to scan. -/
theorem where_dispatch_by_key_presence :
    (∀ primaryKey : Option JSObj,
        whereTarget primaryKey = StoreOp.query ↔ primaryKey.isSome = true) ∧
    whereTarget none = StoreOp.scan ∧
    (∀ tableName : String,
        objGet (whereParams tableName none none none) "KeyConditionExpression"
          = none) ∧
    (∀ (rec : DynamoRecord) (config : Option JSObj) (store : StoreBehavior),
        whereRun rec none none config store
          = settleCall (store StoreOp.scan
              (whereParams rec.tableName none none config))) := by
  refine ⟨?_, rfl, ?_, ?_⟩
  · intro pk
    cases pk <;> simp [whereTarget]
  · intro tableName
    rfl
  · intro rec config store
    rfl

/-- Claim C7 counterexample: two override entries, key and Key, both
capitalize to the field Key; the later one wins, so it is not true that
for each override entry the final object holds that entry value under its
capitalized key. -/
theorem assignConfig_collision_cex :
    objGet (assignConfig [] [("key", JSValue.num 1), ("Key", JSValue.num 2)])
        "Key" = some (JSValue.num 2) ∧
      (some (JSValue.num 2) : Option JSValue) ≠ some (JSValue.num 1) := by
  refine ⟨rfl, ?_⟩
  intro h
  injection h with h
  injection h with h
  exact absurd h (by decide)

/-- Claim C7 amended: assignConfig returns a copy of the generated
parameters in which each override entry is written under its capitalized
key, overwriting any generated field of that name, and fields no override
capitalizes to are unchanged; when two override keys capitalize to the same
field, the later entry takes precedence, so the per-entry description holds
whenever the capitalized keys are pairwise distinct (the embedding is pure,
so the original object is never mutated). -/
theorem assignConfig_overrides (params config : JSObj)
    (h : (config.map (fun e => upperFirst e.1)).Nodup) :
    (∀ e ∈ config,
        objGet (assignConfig params config) (upperFirst e.1) = some e.2) ∧
    (∀ f, f ∉ config.map (fun e => upperFirst e.1) →
        objGet (assignConfig params config) f = objGet params f) :=
  ⟨assignConfig_mem config params h,
   fun f hf => assignConfig_notMem config params f hf⟩

/-- Claim C7 witness: a generated ConsistentRead is overridden by the
consistentRead override while TableName stays untouched. -/
theorem assignConfig_overrides_witness :
    objGet (assignConfig
        [("TableName", JSValue.str "T"), ("ConsistentRead", JSValue.bool true)]
        [("consistentRead", JSValue.bool false), ("limit", JSValue.num 5)])
        "ConsistentRead" = some (JSValue.bool false) ∧
    objGet (assignConfig
        [("TableName", JSValue.str "T"), ("ConsistentRead", JSValue.bool true)]
        [("consistentRead", JSValue.bool false), ("limit", JSValue.num 5)])
        "TableName" = some (JSValue.str "T") := by
  have h := assignConfig_overrides
    [("TableName", JSValue.str "T"), ("ConsistentRead", JSValue.bool true)]
    [("consistentRead", JSValue.bool false), ("limit", JSValue.num 5)]
    (by decide)
  constructor
  · exact h.1 ("consistentRead", JSValue.bool false) (List.mem_cons_self _ _)
  · exact h.2 "TableName" (by decide)

theorem hash_names_nodup (spec : JSObj) (h : (spec.map Prod.fst).Nodup) :
    ((spec.map entryNameBinding).map Prod.fst).Nodup := by
  have hinj : Function.Injective (fun s : String => "#" ++ s) :=
    fun a b hab => string_append_left_cancel "#" a b hab
  have hcomp : (spec.map entryNameBinding).map Prod.fst
      = (spec.map Prod.fst).map (fun s : String => "#" ++ s) := by
    rw [List.map_map, List.map_map]
    rfl
  rw [hcomp]
  exact h.map hinj

theorem colon_names_nodup (spec : JSObj) (h : (spec.map Prod.fst).Nodup) :
    ((spec.map (fun e => (":" ++ e.1, e.2))).map Prod.fst).Nodup := by
  have hinj : Function.Injective (fun s : String => ":" ++ s) :=
    fun a b hab => string_append_left_cancel ":" a b hab
  have hcomp : (spec.map (fun e => ((":" ++ e.1 : String), e.2))).map Prod.fst
      = (spec.map Prod.fst).map (fun s : String => ":" ++ s) := by
    rw [List.map_map, List.map_map]
    rfl
  rw [hcomp]
  exact h.map hinj

/-- Claim C4 counterexample: in the key specification with the range entry
a and the scalar entry aStart, both bind the value placeholder :aStart; the
later scalar entry overwrites the range entry binding, so the claimed
binding :aStart to the first range element does not hold in the dispatched
value-placeholder mapping. -/
theorem key_condition_placeholder_collision_cex :
    objGet (whereBuilt "T"
        (some [("a", JSValue.arr [JSValue.num 1, JSValue.num 2]),
               ("aStart", JSValue.num 5)]) none)
        "ExpressionAttributeValues"
      = some (JSValue.obj [(":aStart", JSValue.num 5), (":aEnd", JSValue.num 2)]) ∧
      (some (JSValue.num 5) : Option JSValue) ≠ some (JSValue.num 1) := by
  refine ⟨rfl, ?_⟩
  intro h
  injection h with h
  injection h with h
  exact absurd h (by decide)

/-- Claim C4 amended: the key condition is built per entry in iteration
order, equality clauses for scalars and BETWEEN clauses with Start/End
bindings for 2-element arrays, joined with AND, each attribute contributing
its name binding and value bindings exactly once, provided the derived
value-placeholder tokens are pairwise distinct (later entries overwrite
earlier ones on a token collision, as the counterexample shows). -/
theorem key_condition_builds_clauses (tableName : String) (spec : JSObj)
    (hnames : (spec.map Prod.fst).Nodup)
    (hvals : ((spec.flatMap entryValueBindings).map Prod.fst).Nodup) :
    objGet (whereBuilt tableName (some spec) none) "KeyConditionExpression"
        = some (JSValue.str (String.intercalate " AND " (spec.map entryClause))) ∧
    objGet (whereBuilt tableName (some spec) none) "ExpressionAttributeNames"
        = some (JSValue.obj (spec.map entryNameBinding)) ∧
    objGet (whereBuilt tableName (some spec) none) "ExpressionAttributeValues"
        = some (JSValue.obj (spec.flatMap entryValueBindings)) := by
  have e : whereBuilt tableName (some spec) none
      = objSet ((spec.foldl processKeyEntry
          ([("TableName", JSValue.str tableName),
            ("ExpressionAttributeNames", JSValue.obj []),
            ("ExpressionAttributeValues", JSValue.obj []),
            ("ReturnConsumedCapacity", JSValue.str "TOTAL")], [])).1)
          "KeyConditionExpression"
          (JSValue.str (String.intercalate " AND "
            ((spec.foldl processKeyEntry
              ([("TableName", JSValue.str tableName),
                ("ExpressionAttributeNames", JSValue.obj []),
                ("ExpressionAttributeValues", JSValue.obj []),
                ("ReturnConsumedCapacity", JSValue.str "TOTAL")], [])).2))) := rfl
  obtain ⟨c1, c2, c3⟩ := keyFold_spec spec
    [("TableName", JSValue.str tableName),
     ("ExpressionAttributeNames", JSValue.obj []),
     ("ExpressionAttributeValues", JSValue.obj []),
     ("ReturnConsumedCapacity", JSValue.str "TOTAL")] [] [] [] rfl rfl
  refine ⟨?_, ?_, ?_⟩
  · rw [e, objGet_objSet_self, c3]
    rfl
  · rw [e, objGet_objSet_ne _ _ _ _ (by decide), c1,
      objSetAll_eq_append _ [] (fun f _ => rfl) (hash_names_nodup spec hnames)]
    rfl
  · rw [e, objGet_objSet_ne _ _ _ _ (by decide), c2,
      objSetAll_eq_append _ [] (fun f _ => rfl) hvals]
    rfl

/-- Claim C4 witness: the scenario with a scalar status and an age range
produces the claimed condition string and placeholder maps. -/
theorem key_condition_builds_clauses_witness :
    objGet (whereBuilt "T"
        (some [("status", JSValue.str "active"),
               ("age", JSValue.arr [JSValue.num 18, JSValue.num 30])]) none)
        "KeyConditionExpression"
      = some (JSValue.str
          "#status = :status AND #age BETWEEN :ageStart AND :ageEnd") ∧
    objGet (whereBuilt "T"
        (some [("status", JSValue.str "active"),
               ("age", JSValue.arr [JSValue.num 18, JSValue.num 30])]) none)
        "ExpressionAttributeNames"
      = some (JSValue.obj
          [("#status", JSValue.str "status"), ("#age", JSValue.str "age")]) ∧
    objGet (whereBuilt "T"
        (some [("status", JSValue.str "active"),
               ("age", JSValue.arr [JSValue.num 18, JSValue.num 30])]) none)
        "ExpressionAttributeValues"
      = some (JSValue.obj
          [(":status", JSValue.str "active"), (":ageStart", JSValue.num 18),
           (":ageEnd", JSValue.num 30)]) := by
  have h := key_condition_builds_clauses "T"
    [("status", JSValue.str "active"),
     ("age", JSValue.arr [JSValue.num 18, JSValue.num 30])]
    (by decide) (by decide)
  exact h

/-- Claim C6: update builds parameters holding the given key, an update
expression that is set followed by one assignment per entry joined with
commas, both placeholder bindings per entry, and the ALL_NEW return flag
requesting the post-update item. -/
theorem update_builds_set_expression (tableName : String) (primaryKey : JSValue)
    (updateSpec : JSObj) (hnames : (updateSpec.map Prod.fst).Nodup) :
    objGet (updateParams tableName primaryKey (some updateSpec) none) "Key"
        = some primaryKey ∧
    objGet (updateParams tableName primaryKey (some updateSpec) none)
        "UpdateExpression"
      = some (JSValue.str ("set " ++ String.intercalate ", "
          (updateSpec.map (fun e => "#" ++ e.1 ++ " = :" ++ e.1)))) ∧
    objGet (updateParams tableName primaryKey (some updateSpec) none)
        "ExpressionAttributeNames"
      = some (JSValue.obj (updateSpec.map entryNameBinding)) ∧
    objGet (updateParams tableName primaryKey (some updateSpec) none)
        "ExpressionAttributeValues"
      = some (JSValue.obj (updateSpec.map (fun e => (":" ++ e.1, e.2)))) ∧
    objGet (updateParams tableName primaryKey (some updateSpec) none)
        "ReturnValues" = some (JSValue.str "ALL_NEW") := by
  have e : updateParams tableName primaryKey (some updateSpec) none
      = objSet ((updateSpec.foldl processUpdateEntry
          ([("TableName", JSValue.str tableName),
            ("Key", primaryKey),
            ("ExpressionAttributeNames", JSValue.obj []),
            ("ExpressionAttributeValues", JSValue.obj []),
            ("ReturnValues", JSValue.str "ALL_NEW")], [])).1)
          "UpdateExpression"
          (JSValue.str ("set " ++ String.intercalate ", "
            ((updateSpec.foldl processUpdateEntry
              ([("TableName", JSValue.str tableName),
                ("Key", primaryKey),
                ("ExpressionAttributeNames", JSValue.obj []),
                ("ExpressionAttributeValues", JSValue.obj []),
                ("ReturnValues", JSValue.str "ALL_NEW")], [])).2))) := rfl
  obtain ⟨c1, c2, c3⟩ := updateFold_spec updateSpec
    [("TableName", JSValue.str tableName),
     ("Key", primaryKey),
     ("ExpressionAttributeNames", JSValue.obj []),
     ("ExpressionAttributeValues", JSValue.obj []),
     ("ReturnValues", JSValue.str "ALL_NEW")] [] [] [] rfl rfl
  refine ⟨?_, ?_, ?_, ?_, ?_⟩
  · rw [e, objGet_objSet_ne _ _ _ _ (by decide),
      updateFold_preserve updateSpec _ _ "Key" (by decide) (by decide)]
    simp [objGet]
  · rw [e, objGet_objSet_self, c3]
    rfl
  · rw [e, objGet_objSet_ne _ _ _ _ (by decide), c1,
      objSetAll_eq_append _ [] (fun f _ => rfl) (hash_names_nodup updateSpec hnames)]
    rfl
  · rw [e, objGet_objSet_ne _ _ _ _ (by decide), c2,
      objSetAll_eq_append _ [] (fun f _ => rfl) (colon_names_nodup updateSpec hnames)]
    rfl
  · rw [e, objGet_objSet_ne _ _ _ _ (by decide),
      updateFold_preserve updateSpec _ _ "ReturnValues" (by decide) (by decide)]
    rfl

/-- Claim C6 witness: the scenario updating name to Bob under key id 1. -/
theorem update_builds_set_expression_witness :
    objGet (updateParams "T" (JSValue.obj [("id", JSValue.str "1")])
        (some [("name", JSValue.str "Bob")]) none) "Key"
      = some (JSValue.obj [("id", JSValue.str "1")]) ∧
    objGet (updateParams "T" (JSValue.obj [("id", JSValue.str "1")])
        (some [("name", JSValue.str "Bob")]) none) "UpdateExpression"
      = some (JSValue.str "set #name = :name") ∧
    objGet (updateParams "T" (JSValue.obj [("id", JSValue.str "1")])
        (some [("name", JSValue.str "Bob")]) none) "ExpressionAttributeNames"
      = some (JSValue.obj [("#name", JSValue.str "name")]) ∧
    objGet (updateParams "T" (JSValue.obj [("id", JSValue.str "1")])
        (some [("name", JSValue.str "Bob")]) none) "ExpressionAttributeValues"
      = some (JSValue.obj [(":name", JSValue.str "Bob")]) ∧
    objGet (updateParams "T" (JSValue.obj [("id", JSValue.str "1")])
        (some [("name", JSValue.str "Bob")]) none) "ReturnValues"
      = some (JSValue.str "ALL_NEW") := by
  have h := update_builds_set_expression "T" (JSValue.obj [("id", JSValue.str "1")])
    [("name", JSValue.str "Bob")] (by decide)
  exact h

/-- Claim C9: find always sets ConsistentRead true and ReturnConsumedCapacity
TOTAL, where and getAll always set ReturnConsumedCapacity TOTAL, and a raw
override configuration still overrides each of these defaults. -/
theorem read_defaults_forced_and_overridable :
    (∀ (tableName : String) (primaryKey : JSValue),
        objGet (findParams tableName primaryKey none) "ConsistentRead"
          = some (JSValue.bool true) ∧
        objGet (findParams tableName primaryKey none) "ReturnConsumedCapacity"
          = some (JSValue.str "TOTAL")) ∧
    (∀ (tableName : String) (primaryKey filterExpression : Option JSObj),
        objGet (whereParams tableName primaryKey filterExpression none)
          "ReturnConsumedCapacity" = some (JSValue.str "TOTAL")) ∧
    (∀ tableName : String,
        objGet (getAllParams tableName none) "ReturnConsumedCapacity"
          = some (JSValue.str "TOTAL")) ∧
    (∀ (tableName : String) (primaryKey v w : JSValue),
        objGet (findParams tableName primaryKey
            (some [("consistentRead", v), ("returnConsumedCapacity", w)]))
          "ConsistentRead" = some v ∧
        objGet (findParams tableName primaryKey
            (some [("consistentRead", v), ("returnConsumedCapacity", w)]))
          "ReturnConsumedCapacity" = some w) ∧
    (∀ (tableName : String) (primaryKey filterExpression : Option JSObj)
        (w : JSValue),
        objGet (whereParams tableName primaryKey filterExpression
            (some [("returnConsumedCapacity", w)]))
          "ReturnConsumedCapacity" = some w) ∧
    (∀ (tableName : String) (w : JSValue),
        objGet (getAllParams tableName (some [("returnConsumedCapacity", w)]))
          "ReturnConsumedCapacity" = some w) := by
  refine ⟨fun _ _ => ⟨rfl, rfl⟩, ?_, fun _ => rfl, ?_, ?_, ?_⟩
  · intro tableName primaryKey filterExpression
    rw [whereParams_none_eq, objGet_prune _ _ (by decide) (by decide)]
    exact whereBuilt_RCC tableName primaryKey filterExpression
  · intro tableName primaryKey v w
    have e : findParams tableName primaryKey
        (some [("consistentRead", v), ("returnConsumedCapacity", w)])
      = objSet (objSet
          [("TableName", JSValue.str tableName),
           ("Key", primaryKey),
           ("ConsistentRead", JSValue.bool true),
           ("ReturnConsumedCapacity", JSValue.str "TOTAL")]
          "ConsistentRead" v) "ReturnConsumedCapacity" w := rfl
    constructor
    · rw [e, objGet_objSet_ne _ _ _ _ (by decide), objGet_objSet_self]
    · rw [e, objGet_objSet_self]
  · intro tableName primaryKey filterExpression w
    have e : whereParams tableName primaryKey filterExpression
        (some [("returnConsumedCapacity", w)])
      = objSet (pruneEmptyPlaceholders
          (whereBuilt tableName primaryKey filterExpression))
          "ReturnConsumedCapacity" w := rfl
    rw [e, objGet_objSet_self]
  · intro tableName w
    have e : getAllParams tableName (some [("returnConsumedCapacity", w)])
      = objSet [("TableName", JSValue.str tableName),
          ("ReturnConsumedCapacity", JSValue.str "TOTAL")]
          "ReturnConsumedCapacity" w := rfl
    rw [e, objGet_objSet_self]

/-- Claim C10: a key or filter specification entry whose value is an array
of length other than 2 takes the scalar branch of the source guard in both
forEach loops: the key path emits the equality clause with the whole array
bound to the single value placeholder, and the filter path binds the whole
array to the single value placeholder with no Start or End binding; no
BETWEEN clause is produced and no error is raised by this layer (the
builder is total). -/
theorem non_pair_array_scalar_equality (tableName k : String) (l : List JSValue)
    (cond : JSValue) (h : l.length ≠ 2) (hcond : jsTruthy cond = true) :
    objGet (whereBuilt tableName (some [(k, JSValue.arr l)]) none)
        "KeyConditionExpression"
      = some (JSValue.str ("#" ++ k ++ " = :" ++ k)) ∧
    objGet (whereBuilt tableName (some [(k, JSValue.arr l)]) none)
        "ExpressionAttributeNames"
      = some (JSValue.obj [("#" ++ k, JSValue.str k)]) ∧
    objGet (whereBuilt tableName (some [(k, JSValue.arr l)]) none)
        "ExpressionAttributeValues"
      = some (JSValue.obj [(":" ++ k, JSValue.arr l)]) ∧
    objGet (whereBuilt tableName none
        (some [("condition", cond), ("keys", JSValue.obj [(k, JSValue.arr l)])]))
        "FilterExpression" = some cond ∧
    objGet (whereBuilt tableName none
        (some [("condition", cond), ("keys", JSValue.obj [(k, JSValue.arr l)])]))
        "ExpressionAttributeNames"
      = some (JSValue.obj [("#" ++ k, JSValue.str k)]) ∧
    objGet (whereBuilt tableName none
        (some [("condition", cond), ("keys", JSValue.obj [(k, JSValue.arr l)])]))
        "ExpressionAttributeValues"
      = some (JSValue.obj [(":" ++ k, JSValue.arr l)]) := by
  have ha : asRange (JSValue.arr l) = none := asRange_of_length_ne_two l h
  have e : whereBuilt tableName (some [(k, JSValue.arr l)]) none
      = objSet (([(k, JSValue.arr l)].foldl processKeyEntry
          ([("TableName", JSValue.str tableName),
            ("ExpressionAttributeNames", JSValue.obj []),
            ("ExpressionAttributeValues", JSValue.obj []),
            ("ReturnConsumedCapacity", JSValue.str "TOTAL")], [])).1)
          "KeyConditionExpression"
          (JSValue.str (String.intercalate " AND "
            (([(k, JSValue.arr l)].foldl processKeyEntry
              ([("TableName", JSValue.str tableName),
                ("ExpressionAttributeNames", JSValue.obj []),
                ("ExpressionAttributeValues", JSValue.obj []),
                ("ReturnConsumedCapacity", JSValue.str "TOTAL")], [])).2))) := rfl
  obtain ⟨c1, c2, c3⟩ := keyFold_spec [(k, JSValue.arr l)]
    [("TableName", JSValue.str tableName),
     ("ExpressionAttributeNames", JSValue.obj []),
     ("ExpressionAttributeValues", JSValue.obj []),
     ("ReturnConsumedCapacity", JSValue.str "TOTAL")] [] [] [] rfl rfl
  have hclause : entryClause (k, JSValue.arr l) = "#" ++ k ++ " = :" ++ k := by
    simp [entryClause, ha]
  have hbind : entryValueBindings (k, JSValue.arr l) = [(":" ++ k, JSValue.arr l)] := by
    simp [entryValueBindings, ha]
  have hguard : (jsTruthy cond && jsTruthy (JSValue.obj [(k, JSValue.arr l)]))
      = true := by
    rw [hcond]
    rfl
  have e2 : whereBuilt tableName none
      (some [("condition", cond), ("keys", JSValue.obj [(k, JSValue.arr l)])])
      = processFilterEntry
          (objSet [("TableName", JSValue.str tableName),
            ("ExpressionAttributeNames", JSValue.obj []),
            ("ExpressionAttributeValues", JSValue.obj []),
            ("ReturnConsumedCapacity", JSValue.str "TOTAL")]
            "FilterExpression" cond)
          (k, JSValue.arr l) := by
    show (if (jsTruthy cond && jsTruthy (JSValue.obj [(k, JSValue.arr l)])) = true
        then List.foldl processFilterEntry
          (objSet [("TableName", JSValue.str tableName),
            ("ExpressionAttributeNames", JSValue.obj []),
            ("ExpressionAttributeValues", JSValue.obj []),
            ("ReturnConsumedCapacity", JSValue.str "TOTAL")]
            "FilterExpression" cond) [(k, JSValue.arr l)]
        else [("TableName", JSValue.str tableName),
          ("ExpressionAttributeNames", JSValue.obj []),
          ("ExpressionAttributeValues", JSValue.obj []),
          ("ReturnConsumedCapacity", JSValue.str "TOTAL")])
      = processFilterEntry
          (objSet [("TableName", JSValue.str tableName),
            ("ExpressionAttributeNames", JSValue.obj []),
            ("ExpressionAttributeValues", JSValue.obj []),
            ("ReturnConsumedCapacity", JSValue.str "TOTAL")]
            "FilterExpression" cond)
          (k, JSValue.arr l)
    rw [hguard]
    simp
  have hstep : processFilterEntry
      (objSet [("TableName", JSValue.str tableName),
        ("ExpressionAttributeNames", JSValue.obj []),
        ("ExpressionAttributeValues", JSValue.obj []),
        ("ReturnConsumedCapacity", JSValue.str "TOTAL")]
        "FilterExpression" cond)
      (k, JSValue.arr l)
      = setIn (setIn
          (objSet [("TableName", JSValue.str tableName),
            ("ExpressionAttributeNames", JSValue.obj []),
            ("ExpressionAttributeValues", JSValue.obj []),
            ("ReturnConsumedCapacity", JSValue.str "TOTAL")]
            "FilterExpression" cond)
          "ExpressionAttributeNames" ("#" ++ k) (JSValue.str k))
        "ExpressionAttributeValues" (":" ++ k) (JSValue.arr l) := by
    simp [processFilterEntry, ha]
  refine ⟨?_, ?_, ?_, ?_, ?_, ?_⟩
  · rw [e, objGet_objSet_self, c3]
    simp [hclause, intercalate_singleton]
  · rw [e, objGet_objSet_ne _ _ _ _ (by decide), c1]
    rfl
  · rw [e, objGet_objSet_ne _ _ _ _ (by decide), c2]
    simp [hbind]
    rfl
  · rw [e2, hstep, objGet_setIn_ne _ _ _ _ _ (by decide),
      objGet_setIn_ne _ _ _ _ _ (by decide), objGet_objSet_self]
  · rw [e2, hstep, objGet_setIn_ne _ _ _ _ _ (by decide)]
    exact objGet_setIn_self _ _ _ _ [] rfl
  · rw [e2, hstep]
    refine objGet_setIn_self _ _ _ _ [] ?_
    rw [objGet_setIn_ne _ _ _ _ _ (by decide)]
    rfl

/-- Claim C10 witness: the three element array is bound whole to the single
value placeholder, on the key path under an equality clause and on the
filter path with the caller condition passed through verbatim. -/
theorem non_pair_array_scalar_equality_witness :
    objGet (whereBuilt "T"
        (some [("a", JSValue.arr [JSValue.num 1, JSValue.num 2, JSValue.num 3])])
        none) "KeyConditionExpression"
      = some (JSValue.str "#a = :a") ∧
    objGet (whereBuilt "T"
        (some [("a", JSValue.arr [JSValue.num 1, JSValue.num 2, JSValue.num 3])])
        none) "ExpressionAttributeNames"
      = some (JSValue.obj [("#a", JSValue.str "a")]) ∧
    objGet (whereBuilt "T"
        (some [("a", JSValue.arr [JSValue.num 1, JSValue.num 2, JSValue.num 3])])
        none) "ExpressionAttributeValues"
      = some (JSValue.obj [(":a", JSValue.arr
          [JSValue.num 1, JSValue.num 2, JSValue.num 3])]) ∧
    objGet (whereBuilt "T" none
        (some [("condition", JSValue.str "#a > :a"),
          ("keys", JSValue.obj [("a", JSValue.arr
            [JSValue.num 1, JSValue.num 2, JSValue.num 3])])]))
        "FilterExpression" = some (JSValue.str "#a > :a") ∧
    objGet (whereBuilt "T" none
        (some [("condition", JSValue.str "#a > :a"),
          ("keys", JSValue.obj [("a", JSValue.arr
            [JSValue.num 1, JSValue.num 2, JSValue.num 3])])]))
        "ExpressionAttributeNames"
      = some (JSValue.obj [("#a", JSValue.str "a")]) ∧
    objGet (whereBuilt "T" none
        (some [("condition", JSValue.str "#a > :a"),
          ("keys", JSValue.obj [("a", JSValue.arr
            [JSValue.num 1, JSValue.num 2, JSValue.num 3])])]))
        "ExpressionAttributeValues"
      = some (JSValue.obj [(":a", JSValue.arr
          [JSValue.num 1, JSValue.num 2, JSValue.num 3])]) := by
  have h := non_pair_array_scalar_equality "T" "a"
    [JSValue.num 1, JSValue.num 2, JSValue.num 3] (JSValue.str "#a > :a")
    (by decide) (by decide)
  exact h

/-- Claim C8: every public operation settles its promise directly from the
single store callback: a truthy error rejects with exactly that error, and
otherwise the promise resolves with exactly the returned data; no retry,
wrapping or local handling exists in any path. -/
theorem operations_propagate_store_result
    (rec : DynamoRecord) (store : StoreBehavior)
    (primaryKeyV createData : JSValue) (items : List JSValue)
    (primaryKey filterExpression updateData config : Option JSObj)
    (e d : JSValue) :
    ((store StoreOp.get (findParams rec.tableName primaryKeyV config) = (e, d)) →
      (jsTruthy e = true →
        findRun rec primaryKeyV config store = PromiseOutcome.rejected e) ∧
      (jsTruthy e = false →
        findRun rec primaryKeyV config store = PromiseOutcome.resolved d)) ∧
    ((store (whereTarget primaryKey)
        (whereParams rec.tableName primaryKey filterExpression config) = (e, d)) →
      (jsTruthy e = true →
        whereRun rec primaryKey filterExpression config store
          = PromiseOutcome.rejected e) ∧
      (jsTruthy e = false →
        whereRun rec primaryKey filterExpression config store
          = PromiseOutcome.resolved d)) ∧
    ((store StoreOp.scan (getAllParams rec.tableName config) = (e, d)) →
      (jsTruthy e = true →
        getAllRun rec config store = PromiseOutcome.rejected e) ∧
      (jsTruthy e = false →
        getAllRun rec config store = PromiseOutcome.resolved d)) ∧
    ((store StoreOp.put (createParams rec.tableName createData config) = (e, d)) →
      (jsTruthy e = true →
        createRun rec createData config store = PromiseOutcome.rejected e) ∧
      (jsTruthy e = false →
        createRun rec createData config store = PromiseOutcome.resolved d)) ∧
    ((store StoreOp.batchWrite
        (batchCreateParams rec.tableName items config) = (e, d)) →
      (jsTruthy e = true →
        batchCreateRun rec items config store = PromiseOutcome.rejected e) ∧
      (jsTruthy e = false →
        batchCreateRun rec items config store = PromiseOutcome.resolved d)) ∧
    ((store StoreOp.updateItem
        (updateParams rec.tableName primaryKeyV updateData config) = (e, d)) →
      (jsTruthy e = true →
        updateRun rec primaryKeyV updateData config store
          = PromiseOutcome.rejected e) ∧
      (jsTruthy e = false →
        updateRun rec primaryKeyV updateData config store
          = PromiseOutcome.resolved d)) ∧
    ((store StoreOp.deleteItem
        (destroyParams rec.tableName primaryKeyV config) = (e, d)) →
      (jsTruthy e = true →
        destroyRun rec primaryKeyV config store = PromiseOutcome.rejected e) ∧
      (jsTruthy e = false →
        destroyRun rec primaryKeyV config store = PromiseOutcome.resolved d)) := by
  refine ⟨?_, ?_, ?_, ?_, ?_, ?_, ?_⟩ <;>
    intro heq <;>
    constructor <;>
    intro ht <;>
    simp [findRun, whereRun, getAllRun, createRun, batchCreateRun, updateRun,
      destroyRun, settleCall, heq, ht]

/-- Claim C8 witness: with a store failing with the error boom every
operation rejects with boom, and with a store returning ok every operation
resolves with ok. -/
theorem operations_propagate_store_result_witness :
    (findRun (mkDynamoRecord "T" "R") JSValue.null none
        (fun _ _ => (JSValue.str "boom", JSValue.null))
      = PromiseOutcome.rejected (JSValue.str "boom")) ∧
    (whereRun (mkDynamoRecord "T" "R") none none none
        (fun _ _ => (JSValue.str "boom", JSValue.null))
      = PromiseOutcome.rejected (JSValue.str "boom")) ∧
    (getAllRun (mkDynamoRecord "T" "R") none
        (fun _ _ => (JSValue.str "boom", JSValue.null))
      = PromiseOutcome.rejected (JSValue.str "boom")) ∧
    (createRun (mkDynamoRecord "T" "R") JSValue.null none
        (fun _ _ => (JSValue.str "boom", JSValue.null))
      = PromiseOutcome.rejected (JSValue.str "boom")) ∧
    (batchCreateRun (mkDynamoRecord "T" "R") [] none
        (fun _ _ => (JSValue.str "boom", JSValue.null))
      = PromiseOutcome.rejected (JSValue.str "boom")) ∧
    (updateRun (mkDynamoRecord "T" "R") JSValue.null none none
        (fun _ _ => (JSValue.str "boom", JSValue.null))
      = PromiseOutcome.rejected (JSValue.str "boom")) ∧
    (destroyRun (mkDynamoRecord "T" "R") JSValue.null none
        (fun _ _ => (JSValue.str "boom", JSValue.null))
      = PromiseOutcome.rejected (JSValue.str "boom")) ∧
    (findRun (mkDynamoRecord "T" "R") JSValue.null none
        (fun _ _ => (JSValue.null, JSValue.str "ok"))
      = PromiseOutcome.resolved (JSValue.str "ok")) ∧
    (whereRun (mkDynamoRecord "T" "R") none none none
        (fun _ _ => (JSValue.null, JSValue.str "ok"))
      = PromiseOutcome.resolved (JSValue.str "ok")) ∧
    (getAllRun (mkDynamoRecord "T" "R") none
        (fun _ _ => (JSValue.null, JSValue.str "ok"))
      = PromiseOutcome.resolved (JSValue.str "ok")) ∧
    (createRun (mkDynamoRecord "T" "R") JSValue.null none
        (fun _ _ => (JSValue.null, JSValue.str "ok"))
      = PromiseOutcome.resolved (JSValue.str "ok")) ∧
    (batchCreateRun (mkDynamoRecord "T" "R") [] none
        (fun _ _ => (JSValue.null, JSValue.str "ok"))
      = PromiseOutcome.resolved (JSValue.str "ok")) ∧
    (updateRun (mkDynamoRecord "T" "R") JSValue.null none none
        (fun _ _ => (JSValue.null, JSValue.str "ok"))
      = PromiseOutcome.resolved (JSValue.str "ok")) ∧
    (destroyRun (mkDynamoRecord "T" "R") JSValue.null none
        (fun _ _ => (JSValue.null, JSValue.str "ok"))
      = PromiseOutcome.resolved (JSValue.str "ok")) := by
  have hrej := operations_propagate_store_result (mkDynamoRecord "T" "R")
    (fun _ _ => (JSValue.str "boom", JSValue.null)) JSValue.null JSValue.null []
    none none none none (JSValue.str "boom") JSValue.null
  have hres := operations_propagate_store_result (mkDynamoRecord "T" "R")
    (fun _ _ => (JSValue.null, JSValue.str "ok")) JSValue.null JSValue.null []
    none none none none JSValue.null (JSValue.str "ok")
  refine ⟨(hrej.1 rfl).1 rfl, ((hrej.2.1) rfl).1 rfl, (hrej.2.2.1 rfl).1 rfl,
    (hrej.2.2.2.1 rfl).1 rfl, (hrej.2.2.2.2.1 rfl).1 rfl,
    (hrej.2.2.2.2.2.1 rfl).1 rfl, (hrej.2.2.2.2.2.2 rfl).1 rfl,
    (hres.1 rfl).2 rfl, ((hres.2.1) rfl).2 rfl, (hres.2.2.1 rfl).2 rfl,
    (hres.2.2.2.1 rfl).2 rfl, (hres.2.2.2.2.1 rfl).2 rfl,
    (hres.2.2.2.2.2.1 rfl).2 rfl, (hres.2.2.2.2.2.2 rfl).2 rfl⟩
